import Mathlib

/-!
Verification development for the intersection simulation (`intersection.c`).

The C program runs nine traffic-light threads (`manage_light`), one arrival
supplier (`supply_arrivals`) and a controller (`main`).  Shared state:

* `mutexes[9]`          — one mutex per intersection segment (ids 1..9);
* `mutex_lock`          — the arbitration lock serializing acquisition;
* `semaphores[4][3]`    — per-lane arrival signals;
* `curr_arrivals[4][3][20]` — the per-lane arrival store;
* `lights[9]`           — the static lane-path geometry table.

We embed the lock-manipulating code shallowly: the segment lock table becomes
a function from mutex index to the optional identity of the holding light,
and each critical section executed under `mutex_lock` becomes one step of a
transition relation (the C code holds `mutex_lock` for the whole of every
acquisition and release decision, so those sections are atomic relative to
each other).
-/

namespace Intersection

/-- Side of the intersection (`Side` in `arrivals.h`, values 0..3). -/
inductive Side
  | north
  | east
  | south
  | west
deriving DecidableEq, Repr

/-- Numeric value of a `Side`, as the C enum (`NORTH = 0, ..., WEST = 3`). -/
def sideNum : Side → Nat
  | .north => 0
  | .east => 1
  | .south => 2
  | .west => 3

/-- Direction over the intersection (`Direction` in `arrivals.h`, values 0..2). -/
inductive Direction
  | left
  | straight
  | right
deriving DecidableEq, Repr

/-- Numeric value of a `Direction` (`LEFT = 0, STRAIGHT = 1, RIGHT = 2`). -/
def dirNum : Direction → Nat
  | .left => 0
  | .straight => 1
  | .right => 2

/-- One entry of the static `lights[9]` table of `intersection.c`:
a side, a direction, and up to four segment ids `m1..m4` (0 = unused slot). -/
structure Light where
  side : Side
  direction : Direction
  m1 : Nat
  m2 : Nat
  m3 : Nat
  m4 : Nat
deriving DecidableEq, Repr

/-- The `lights[9]` table, copied row by row from `intersection.c`. -/
def lightsList : List Light :=
  [ ⟨.north, .right, 1, 0, 0, 0⟩
  , ⟨.north, .straight, 2, 8, 9, 0⟩
  , ⟨.east, .right, 3, 0, 0, 0⟩
  , ⟨.east, .straight, 1, 2, 4, 0⟩
  , ⟨.east, .left, 5, 7, 9, 0⟩
  , ⟨.south, .straight, 3, 4, 5, 0⟩
  , ⟨.south, .left, 1, 2, 6, 7⟩
  , ⟨.west, .right, 9, 0, 0, 0⟩
  , ⟨.west, .left, 3, 4, 6, 8⟩ ]

/-- `lights[i]` for a light index `i < 9`. -/
def lights (i : Fin 9) : Light :=
  lightsList.getD i.val ⟨.north, .left, 0, 0, 0, 0⟩

/-- The four path-mutex ids `m1..m4` this light reads from its `lights` row,
in the order the C code tries them. -/
def pathOf (lg : Light) : List Nat :=
  [lg.m1, lg.m2, lg.m3, lg.m4]

/-- State of the segment lock table `mutexes[]`: mutex index (0-based, the C
code indexes `mutexes[m-1]` for segment id `m`) to the light currently
holding it, `none` when unlocked. -/
abbrev Locks := Nat → Option (Fin 9)

/-- The `EBUSY` error code returned by `pthread_mutex_trylock` on a held lock. -/
def EBUSY : Int := 16

/-- One line of the acquisition attempt,
`mNr = mN == 0 ? -2 : pthread_mutex_trylock(&mutexes[mN-1])`:
a zero id is skipped with sentinel result `-2`; otherwise the trylock
either acquires a free mutex for light `i` (result `0`) or leaves a held
mutex alone (result `EBUSY`). -/
def tryStep (i : Fin 9) (m : Nat) (L : Locks) : Locks × Int :=
  if m = 0 then (L, -2)
  else
    match L (m - 1) with
    | none => (fun k => if k = m - 1 then some i else L k, 0)
    | some _ => (L, EBUSY)

/-- The four trylock statements of `manage_light`, executed in order over the
path ids `[m1, m2, m3, m4]`; returns the lock table after the trylocks and
the list of result codes `[m1r, m2r, m3r, m4r]`. -/
def tryAll (i : Fin 9) (L : Locks) : List Nat → Locks × List Int
  | [] => (L, [])
  | m :: ms =>
    let p := tryStep i m L
    let q := tryAll i p.1 ms
    (q.1, p.2 :: q.2)

/-- The `all_unlocked` flag of `manage_light`: it stays `true` exactly when
every result code is `0` (locked here) or `-2` (slot unused). -/
def allUnlockedOf (rs : List Int) : Bool :=
  rs.all fun r => r == 0 || r == -2

/-- One conditional unlock of the contention branch,
`if (mN != 0 && mNr == 0) pthread_mutex_unlock(&mutexes[mN-1])`. -/
def relStep (m : Nat) (r : Int) (L : Locks) : Locks :=
  if m ≠ 0 ∧ r = 0 then fun k => if k = m - 1 then none else L k else L

/-- The four conditional unlocks of the contention branch, in order, over the
pairs of path id and recorded result code. -/
def relAll : List (Nat × Int) → Locks → Locks
  | [], L => L
  | (m, r) :: ps, L => relAll ps (relStep m r L)

/-- One unconditional unlock of the releasing phase,
`if (mN != 0) pthread_mutex_unlock(&mutexes[mN-1])`. -/
def relUncond (m : Nat) (L : Locks) : Locks :=
  if m ≠ 0 then fun k => if k = m - 1 then none else L k else L

/-- The four unconditional unlocks after the crossing, in order. -/
def relUncondAll : List Nat → Locks → Locks
  | [], L => L
  | m :: ms, L => relUncondAll ms (relUncond m L)

/-- The acquisition attempt of `manage_light` (lines 211..261), performed
under `mutex_lock`: try every path mutex in order; if `all_unlocked`, keep
them all (`true`); otherwise undo every trylock that succeeded (`false`). -/
def attempt (i : Fin 9) (L : Locks) : Locks × Bool :=
  let t := tryAll i L (pathOf (lights i))
  if allUnlockedOf t.2 then (t.1, true)
  else (relAll ((pathOf (lights i)).zip t.2) t.1, false)

/-- The releasing phase of `manage_light` (lines 288..303): unlock every
non-zero path mutex of light `i`. -/
def releaseAll (i : Fin 9) (L : Locks) : Locks :=
  relUncondAll (pathOf (lights i)) L

/-- The 0-based mutex indices of the non-zero slots of a path list
(segment id `m ≠ 0` touches `mutexes[m-1]`). -/
def nzIdxs (ms : List Nat) : List Nat :=
  ms.filterMap fun m => if m = 0 then none else some (m - 1)

/-- The mutex indices whose trylock succeeded in an attempt, read off the
(path id, result code) pairs; these are exactly the conditional unlocks the
contention branch performs. -/
def succIdxs : List (Nat × Int) → List Nat
  | [] => []
  | (m, r) :: ps => (if m ≠ 0 ∧ r = 0 then [m - 1] else []) ++ succIdxs ps

/-- Global state of the simulation as far as the segment locks are concerned:
the lock table and, per light, whether it is currently between a successful
acquisition and the matching release (the crossing section of
`manage_light`). -/
structure SimState where
  locks : Locks
  crossing : Fin 9 → Bool

/-- Startup state: every mutex unlocked, no light crossing. -/
def initState : SimState := ⟨fun _ => none, fun _ => false⟩

/-- One critical section of a light thread, executed while holding
`mutex_lock`; since every mutation of `mutexes[]` in `intersection.c`
happens under `mutex_lock`, these sections are atomic relative to each
other and to the probes of `all_cars_handled` (which restore the table). -/
inductive Step : SimState → SimState → Prop
  | acquire (i : Fin 9) (s : SimState) (hc : s.crossing i = false)
      (ha : (attempt i s.locks).2 = true) :
      Step s ⟨(attempt i s.locks).1, Function.update s.crossing i true⟩
  | acquireFail (i : Fin 9) (s : SimState) (hc : s.crossing i = false)
      (ha : (attempt i s.locks).2 = false) :
      Step s ⟨(attempt i s.locks).1, s.crossing⟩
  | release (i : Fin 9) (s : SimState) (hc : s.crossing i = true) :
      Step s ⟨releaseAll i s.locks, Function.update s.crossing i false⟩

/-- States reachable from startup by light-thread critical sections. -/
inductive Reachable : SimState → Prop
  | init : Reachable initState
  | step {s s₂ : SimState} (h : Reachable s) (hs : Step s s₂) : Reachable s₂

/-- The protocol invariant: a crossing light holds every mutex of its path,
and every held mutex belongs to the path of the crossing light holding it. -/
def Inv (s : SimState) : Prop :=
  (∀ i : Fin 9, s.crossing i = true →
    ∀ k ∈ nzIdxs (pathOf (lights i)), s.locks k = some i) ∧
  (∀ (k : Nat) (i : Fin 9), s.locks k = some i →
    s.crossing i = true ∧ k ∈ nzIdxs (pathOf (lights i)))

/-- Witness state: light 0 (north right) has acquired its path from startup. -/
def c1s1 : SimState :=
  ⟨(attempt 0 initState.locks).1, Function.update initState.crossing 0 true⟩

/-- Witness state: additionally light 2 (east right) has acquired its path. -/
def c1s2 : SimState :=
  ⟨(attempt 2 c1s1.locks).1, Function.update c1s1.crossing 2 true⟩

/-- Observable actions of one iteration of the `manage_light` loop body. -/
inductive MAction
  | semWait
  | lockArb
  | unlockSeg (k : Nat)
  | postSem
  | printGreen
  | unlockArb
  | sleepCross
  | printRed
  | sleepShort
deriving DecidableEq, Repr

/-- The conditional unlock actions of the contention branch, one
`unlockSeg (m-1)` per path id whose trylock had succeeded, in program
order. -/
def condRelActs : List (Nat × Int) → List MAction
  | [] => []
  | (m, r) :: ps =>
    (if m ≠ 0 ∧ r = 0 then [MAction.unlockSeg (m - 1)] else []) ++ condRelActs ps

/-- The unconditional unlock actions of the releasing phase, one
`unlockSeg (m-1)` per non-zero path id, in program order. -/
def relActs : List Nat → List MAction
  | [] => []
  | m :: ms =>
    (if m ≠ 0 then [MAction.unlockSeg (m - 1)] else []) ++ relActs ms

/-- One iteration of the `manage_light` loop body (lines 198..316): wait on
the lane semaphore, lock `mutex_lock`, try the four path mutexes; on
contention unlock the successful ones, re-post the semaphore, unlock
`mutex_lock` and sleep; on success print green, unlock `mutex_lock`, sleep
`CROSS_TIME`, print red, relock `mutex_lock`, unlock the path mutexes,
unlock `mutex_lock` and sleep.  Returns the final lock table and the
ordered action trace. -/
def manageIteration (i : Fin 9) (L : Locks) : Locks × List MAction :=
  let t := tryAll i L (pathOf (lights i))
  if allUnlockedOf t.2 then
    (relUncondAll (pathOf (lights i)) t.1,
     [MAction.semWait, MAction.lockArb, MAction.printGreen, MAction.unlockArb,
      MAction.sleepCross, MAction.printRed, MAction.lockArb]
       ++ relActs (pathOf (lights i)) ++ [MAction.unlockArb, MAction.sleepShort])
  else
    (relAll ((pathOf (lights i)).zip t.2) t.1,
     [MAction.semWait, MAction.lockArb]
       ++ condRelActs ((pathOf (lights i)).zip t.2)
       ++ [MAction.postSem, MAction.unlockArb, MAction.sleepShort])

/-- Whether an action is a segment unlock. -/
def isSegUnlock : MAction → Bool
  | .unlockSeg _ => true
  | _ => false

/-- Whether an action is the semaphore re-post of the contention branch. -/
def isPostSem : MAction → Bool
  | .postSem => true
  | _ => false

/-- Whether an action is the green observation. -/
def isGreen : MAction → Bool
  | .printGreen => true
  | _ => false

/-- Whether an action locks the arbitration lock `mutex_lock`. -/
def isLockArb : MAction → Bool
  | .lockArb => true
  | _ => false

/-- Whether an action unlocks the arbitration lock `mutex_lock`. -/
def isUnlockArb : MAction → Bool
  | .unlockArb => true
  | _ => false

/-- The ordering the claim asserts for a retry: the semaphore re-post comes
before every segment unlock of the trace (vacuously true when no re-post
occurs). -/
def sigBeforeRels (tr : List MAction) : Bool :=
  match tr.findIdx? isPostSem with
  | none => true
  | some p => (tr.take p).all fun a => !isSegUnlock a

/-- The ordering the claim asserts for the crossing: some arbitration-lock
release comes before the green observation (vacuously true when no green
occurs). -/
def arbRelBeforeGreen (tr : List MAction) : Bool :=
  match tr.findIdx? isGreen with
  | none => true
  | some g => (tr.take g).any isUnlockArb

/-- Whether the arbitration lock is held just before position `n` of a trace:
strictly more `lockArb` than `unlockArb` actions occur before `n`. -/
def arbHeldBefore (tr : List MAction) (n : Nat) : Bool :=
  decide (((tr.take n).countP fun a => isLockArb a)
    > ((tr.take n).countP fun a => isUnlockArb a))

/-- Lock state driving the C4/C5 contention example: mutex index 8
(segment 9) is held by light 4, everything else is free. -/
def c4Locks : Locks := fun k => if k = 8 then some 4 else none

/-- Lock state for the quiescence example: mutex index 3 is held by light 0,
everything else is free. -/
def c3Locks : Locks := fun k => if k = 3 then some 0 else none

/-- Observable actions of one `all_cars_handled` call. -/
inductive CAction
  | lockArb
  | probe (k : Nat)
  | probeRel (k : Nat)
  | unlockArb
deriving DecidableEq, Repr

/-- The probe loop of `all_cars_handled` (lines 144..164): for each mutex
index in order, trylock it; on success immediately unlock it again and
continue; on `EBUSY` stop and report `false`.  Since every successful probe
is undone at once, the lock table is unchanged and the result depends only
on which mutexes are held; the trace records the probes performed. -/
def probeLoop (L : Locks) : List Nat → Bool × List CAction
  | [] => (true, [])
  | k :: ks =>
    match L k with
    | none =>
      let q := probeLoop L ks
      (q.1, CAction.probe k :: CAction.probeRel k :: q.2)
    | some _ => (false, [CAction.probe k])

/-- The probe actions for a list of mutex indices that are all free. -/
def probesOf : List Nat → List CAction
  | [] => []
  | k :: ks => CAction.probe k :: CAction.probeRel k :: probesOf ks

/-- The semaphore scan of `all_cars_handled` (lines 128..140): every lane
semaphore value, indices `i < 4` and `j < 3`, must read zero. -/
def semsClear (sems : Nat → Nat → Nat) : Bool :=
  (List.range 4).all fun i => (List.range 3).all fun j => !decide (sems i j > 0)

/-- The quiescence detector `all_cars_handled`: `false` as soon as some lane
semaphore is positive; otherwise the result of probing all nine mutexes. -/
def all_cars_handled (sems : Nat → Nat → Nat) (L : Locks) : Bool :=
  if semsClear sems then (probeLoop L (List.range 9)).1 else false

/-- The action trace of an `all_cars_handled` call: when the semaphores are
clear, the probes run bracketed by `pthread_mutex_lock(&mutex_lock)` and
`pthread_mutex_unlock(&mutex_lock)` (every return path unlocks first);
otherwise the function returns before touching `mutex_lock`. -/
def achTrace (sems : Nat → Nat → Nat) (L : Locks) : List CAction :=
  if semsClear sems then
    CAction.lockArb :: ((probeLoop L (List.range 9)).2 ++ [CAction.unlockArb])
  else []

/-- Whether a `CAction` is a segment probe or its immediate release. -/
def isProbeAct : CAction → Bool
  | .probe _ => true
  | .probeRel _ => true
  | _ => false

/-- The output line of `print_traffic_light_change` (lines 108..119):
for a green change, `traffic light %d %d turns green at time %d for car %d`;
for a red change, `traffic light %d %d turns red at time %d`; `%d` renders
the enum values of side and direction. -/
def print_traffic_light_change (side : Side) (direction : Direction)
    (green : Bool) (time : Nat) (forCar : Nat) : String :=
  if green then
    "traffic light " ++ toString (sideNum side) ++ " " ++ toString (dirNum direction)
      ++ " turns green at time " ++ toString time ++ " for car " ++ toString forCar
      ++ "\n"
  else
    "traffic light " ++ toString (sideNum side) ++ " " ++ toString (dirNum direction)
      ++ " turns red at time " ++ toString time ++ "\n"

/-- Modelled from the spec: the green-line form the specification asserts,
`light <side> <movement> turns green at time <t> for car <id>`, with the
placeholders rendered as the same numeric values the program prints. -/
def specGreenLine (side movement t id : Nat) : String :=
  "light " ++ toString side ++ " " ++ toString movement
    ++ " turns green at time " ++ toString t ++ " for car " ++ toString id ++ "\n"

/-- Modelled from the spec: the red-line form the specification asserts,
`light <side> <movement> turns red at time <t>`. -/
def specRedLine (side movement t : Nat) : String :=
  "light " ++ toString side ++ " " ++ toString movement
    ++ " turns red at time " ++ toString t ++ "\n"

/-- The green-line form the program actually produces. -/
def trafficGreenLine (side : Side) (direction : Direction) (t c : Nat) : String :=
  "traffic light " ++ toString (sideNum side) ++ " " ++ toString (dirNum direction)
    ++ " turns green at time " ++ toString t ++ " for car " ++ toString c ++ "\n"

/-- The red-line form the program actually produces. -/
def trafficRedLine (side : Side) (direction : Direction) (t : Nat) : String :=
  "traffic light " ++ toString (sideNum side) ++ " " ++ toString (dirNum direction)
    ++ " turns red at time " ++ toString t ++ "\n"

/-- The per-lane capacity of `curr_arrivals[4][3][20]`. -/
def laneCapacity : Nat := 20

/-- One record of the input arrival dataset, sides and directions as their
enum values. -/
structure InArrival where
  id : Nat
  side : Nat
  direction : Nat
  time : Nat
deriving DecidableEq, Repr

/-- The store writes of `supply_arrivals` (lines 73..96): each arrival is
written to `curr_arrivals[side][direction][n]` where `n` is the running
per-lane count `num_curr_arrivals[side][direction]`, with no capacity
check of any kind; the result lists the `(side, direction, index)` of each
write in order. -/
def supplyWrites : List InArrival → (Nat → Nat → Nat) → List (Nat × Nat × Nat)
  | [], _ => []
  | a :: rest, cnt =>
    (a.side, a.direction, cnt a.side a.direction) ::
      supplyWrites rest
        (fun s d => if s = a.side ∧ d = a.direction then cnt s d + 1 else cnt s d)

/-- The store writes of a full `supply_arrivals` run, counts starting at 0. -/
def supplyWriteList (arrs : List InArrival) : List (Nat × Nat × Nat) :=
  supplyWrites arrs fun _ _ => 0

/-- A dataset giving lane (north, straight) 21 arrivals, one more than the
store capacity. -/
def c7Dataset : List InArrival :=
  (List.range 21).map fun n => ⟨n, 0, 1, n⟩

/-- The branch `all_cars_handled` takes on one probe result (lines 147..163):
`0` unlocks the probe and continues; `EBUSY` logs the held mutex and
returns `false`; any other code logs an error and also returns `false`. -/
inductive ProbeOutcome
  | releaseAndContinue
  | contendedFalse
  | errorFalse
deriving DecidableEq, Repr

/-- Classification of a probe result code by `all_cars_handled`. -/
def probeClassify (result : Int) : ProbeOutcome :=
  if result = 0 then ProbeOutcome.releaseAndContinue
  else if result = EBUSY then ProbeOutcome.contendedFalse
  else ProbeOutcome.errorFalse

/-- Whether a probe outcome makes `all_cars_handled` return `false` (both the
`EBUSY` branch and the error branch do; neither aborts the process). -/
def probeReturnsFalse : ProbeOutcome → Bool
  | .releaseAndContinue => false
  | .contendedFalse => true
  | .errorFalse => true

/-- The declared size of `pthread_t light_threads[8]` in `main`. -/
def lightThreadsSize : Nat := 8

/-- The indices of the thread-creation loop in `main` (line 339), which runs
over all entries of the `lights` table. -/
def threadCreateIdxs : List Nat := List.range lightsList.length

/-- The declared size of `pthread_mutex_t mutexes[9]`. -/
def mutexCount : Nat := 9

/-- The indices covered by the mutex-initialization loop of `main`
(line 332, `for i < 8`). -/
def mutexInitIdxs : List Nat := List.range 8

/-- The indices covered by the mutex-destruction loop of `main`
(line 386, `for i < 8`). -/
def mutexDestroyIdxs : List Nat := List.range 8

/-! ## Helper lemmas about the acquisition attempt -/

theorem tryStep_free {m : Nat} (i : Fin 9) (L : Locks) (hm : m ≠ 0)
    (h : L (m - 1) = none) :
    tryStep i m L = (fun k => if k = m - 1 then some i else L k, 0) := by
  simp [tryStep, hm, h]

theorem tryStep_held {m : Nat} {j : Fin 9} (i : Fin 9) (L : Locks) (hm : m ≠ 0)
    (h : L (m - 1) = some j) : tryStep i m L = (L, EBUSY) := by
  simp [tryStep, hm, h]

theorem succIdxs_cons (m : Nat) (r : Int) (ps : List (Nat × Int)) :
    succIdxs ((m, r) :: ps) =
      (if m ≠ 0 ∧ r = 0 then [m - 1] else []) ++ succIdxs ps := rfl

/-- Characterization of the four trylocks: the successfully taken indices
were all free beforehand; afterwards exactly those are additionally held by
`i`; and when `all_unlocked` holds they are exactly the non-zero path
indices. -/
theorem tryAll_char (i : Fin 9) :
    ∀ (ms : List Nat) (L : Locks),
      (∀ k ∈ succIdxs (ms.zip (tryAll i L ms).2), L k = none) ∧
      (∀ k, (tryAll i L ms).1 k =
        if k ∈ succIdxs (ms.zip (tryAll i L ms).2) then some i else L k) ∧
      (allUnlockedOf (tryAll i L ms).2 = true →
        succIdxs (ms.zip (tryAll i L ms).2) = nzIdxs ms) := by
  intro ms
  induction ms with
  | nil => intro L; simp [tryAll, succIdxs, nzIdxs]
  | cons m ms ih =>
    intro L
    by_cases hm : m = 0
    · subst hm
      have hta : tryAll i L (0 :: ms) =
          ((tryAll i L ms).1, (-2 : Int) :: (tryAll i L ms).2) := by
        simp [tryAll, tryStep]
      obtain ⟨ih1, ih2, ih3⟩ := ih L
      rw [hta]
      have hS : succIdxs ((0 :: ms).zip ((-2 : Int) :: (tryAll i L ms).2)) =
          succIdxs (ms.zip (tryAll i L ms).2) := by
        rw [List.zip_cons_cons, succIdxs_cons]
        simp
      refine ⟨?_, ?_, ?_⟩
      · rw [hS]; exact ih1
      · intro k; rw [hS]; exact ih2 k
      · intro hall
        have hall2 : allUnlockedOf (tryAll i L ms).2 = true := by
          simpa [allUnlockedOf] using hall
        rw [hS, ih3 hall2]
        simp [nzIdxs]
    · rcases hL : L (m - 1) with _ | j
      · -- the mutex is free: the trylock takes it
        have hta : tryAll i L (m :: ms) =
            ((tryAll i (fun k => if k = m - 1 then some i else L k) ms).1,
              (0 : Int) ::
                (tryAll i (fun k => if k = m - 1 then some i else L k) ms).2) := by
          simp [tryAll, tryStep_free i L hm hL]
        obtain ⟨ih1, ih2, ih3⟩ := ih (fun k => if k = m - 1 then some i else L k)
        rw [hta]
        have hS : succIdxs ((m :: ms).zip ((0 : Int) ::
            (tryAll i (fun k => if k = m - 1 then some i else L k) ms).2)) =
            (m - 1) :: succIdxs
              (ms.zip (tryAll i (fun k => if k = m - 1 then some i else L k) ms).2) := by
          rw [List.zip_cons_cons, succIdxs_cons]
          simp [hm]
        refine ⟨?_, ?_, ?_⟩
        · intro k hk
          rw [hS] at hk
          rcases List.mem_cons.mp hk with hk | hk
          · rw [hk]; exact hL
          · have h1 := ih1 k hk
            by_cases hkm : k = m - 1
            · simp [hkm] at h1
            · simpa [hkm] using h1
        · intro k
          rw [hS]
          have h2 := ih2 k
          by_cases hks : k ∈ succIdxs
              (ms.zip (tryAll i (fun k => if k = m - 1 then some i else L k) ms).2)
          · rw [if_pos hks] at h2
            rw [if_pos (List.mem_cons.mpr (Or.inr hks))]
            exact h2
          · rw [if_neg hks] at h2
            by_cases hkm : k = m - 1
            · rw [if_pos (List.mem_cons.mpr (Or.inl hkm))]
              rw [h2, if_pos hkm]
            · rw [if_neg (by simp [hkm, hks])]
              rw [h2, if_neg hkm]
        · intro hall
          have hall2 : allUnlockedOf
              (tryAll i (fun k => if k = m - 1 then some i else L k) ms).2 = true := by
            simpa [allUnlockedOf] using hall
          rw [hS, ih3 hall2]
          simp [nzIdxs, List.filterMap_cons, hm]
      · -- the mutex is held: the trylock fails with EBUSY
        have hta : tryAll i L (m :: ms) =
            ((tryAll i L ms).1, EBUSY :: (tryAll i L ms).2) := by
          simp [tryAll, tryStep_held i L hm hL]
        obtain ⟨ih1, ih2, ih3⟩ := ih L
        rw [hta]
        have hS : succIdxs ((m :: ms).zip (EBUSY :: (tryAll i L ms).2)) =
            succIdxs (ms.zip (tryAll i L ms).2) := by
          rw [List.zip_cons_cons, succIdxs_cons]
          simp [EBUSY]
        refine ⟨?_, ?_, ?_⟩
        · rw [hS]; exact ih1
        · intro k; rw [hS]; exact ih2 k
        · intro hall
          simp [allUnlockedOf, EBUSY] at hall

/-- The conditional unlocks of the contention branch clear exactly the
indices whose trylock had succeeded. -/
theorem relAll_char :
    ∀ (ps : List (Nat × Int)) (L : Locks) (k : Nat),
      relAll ps L k = if k ∈ succIdxs ps then none else L k := by
  intro ps
  induction ps with
  | nil => intro L k; simp [relAll, succIdxs]
  | cons p ps ih =>
    intro L k
    obtain ⟨m, r⟩ := p
    rw [succIdxs_cons]
    by_cases hc : m ≠ 0 ∧ r = 0
    · have hrel : relAll ((m, r) :: ps) L =
          relAll ps (fun k2 => if k2 = m - 1 then none else L k2) := by
        simp [relAll, relStep, hc]
      rw [hrel, ih]
      rw [if_pos hc]
      by_cases hks : k ∈ succIdxs ps
      · simp [hks]
      · by_cases hkm : k = m - 1
        · simp [hks, hkm]
        · simp [hks, hkm]
    · have hrel : relAll ((m, r) :: ps) L = relAll ps L := by
        simp [relAll, relStep, hc]
      rw [hrel, ih, if_neg hc]
      simp

/-- The unconditional unlocks of the releasing phase clear exactly the
non-zero path indices. -/
theorem relUncondAll_char :
    ∀ (ms : List Nat) (L : Locks) (k : Nat),
      relUncondAll ms L k = if k ∈ nzIdxs ms then none else L k := by
  intro ms
  induction ms with
  | nil => intro L k; simp [relUncondAll, nzIdxs]
  | cons m ms ih =>
    intro L k
    by_cases hm : m = 0
    · have hrel : relUncondAll (m :: ms) L = relUncondAll ms L := by
        simp [relUncondAll, relUncond, hm]
      rw [hrel, ih]
      simp [nzIdxs, List.filterMap_cons, hm]
    · have hrel : relUncondAll (m :: ms) L =
          relUncondAll ms (fun k2 => if k2 = m - 1 then none else L k2) := by
        simp [relUncondAll, relUncond, hm]
      have hnz : nzIdxs (m :: ms) = (m - 1) :: nzIdxs ms := by
        simp [nzIdxs, List.filterMap_cons, hm]
      rw [hrel, ih, hnz]
      by_cases hks : k ∈ nzIdxs ms
      · simp [hks]
      · by_cases hkm : k = m - 1
        · simp [hks, hkm]
        · simp [hks, hkm]

/-- A failed attempt leaves the lock table exactly as it found it. -/
theorem attempt_fail {i : Fin 9} {L : Locks} (h : (attempt i L).2 = false) :
    (attempt i L).1 = L := by
  by_cases hall : allUnlockedOf (tryAll i L (pathOf (lights i))).2 = true
  · simp [attempt, hall] at h
  · obtain ⟨h1, h2, _⟩ := tryAll_char i (pathOf (lights i)) L
    have hfst : (attempt i L).1 =
        relAll ((pathOf (lights i)).zip (tryAll i L (pathOf (lights i))).2)
          (tryAll i L (pathOf (lights i))).1 := by
      simp [attempt, hall]
    rw [hfst]
    funext k
    rw [relAll_char]
    by_cases hk : k ∈ succIdxs
        ((pathOf (lights i)).zip (tryAll i L (pathOf (lights i))).2)
    · rw [if_pos hk, h1 k hk]
    · rw [if_neg hk, h2 k, if_neg hk]

/-- A successful attempt adds exactly the non-zero path indices of light `i`
to the lock table, and those indices were all free beforehand. -/
theorem attempt_succ {i : Fin 9} {L : Locks} (h : (attempt i L).2 = true) :
    (∀ k, (attempt i L).1 k =
      if k ∈ nzIdxs (pathOf (lights i)) then some i else L k) ∧
    (∀ k ∈ nzIdxs (pathOf (lights i)), L k = none) := by
  by_cases hall : allUnlockedOf (tryAll i L (pathOf (lights i))).2 = true
  · obtain ⟨h1, h2, h3⟩ := tryAll_char i (pathOf (lights i)) L
    have hfst : (attempt i L).1 = (tryAll i L (pathOf (lights i))).1 := by
      simp [attempt, hall]
    rw [hfst]
    rw [h3 hall] at h1 h2
    exact ⟨h2, h1⟩
  · simp [attempt, hall] at h

/-- The releasing phase clears exactly the non-zero path indices of the
light. -/
theorem releaseAll_char (i : Fin 9) (L : Locks) (k : Nat) :
    releaseAll i L k = if k ∈ nzIdxs (pathOf (lights i)) then none else L k :=
  relUncondAll_char (pathOf (lights i)) L k

/-- A non-zero segment id of a path contributes its mutex index. -/
theorem nzIdxs_mem {m : Nat} {ms : List Nat} (h1 : m ∈ ms) (h2 : m ≠ 0) :
    m - 1 ∈ nzIdxs ms := by
  simp only [nzIdxs, List.mem_filterMap]
  exact ⟨m, h1, by simp [h2]⟩

/-! ## The protocol invariant -/

theorem inv_init : Inv initState := by
  constructor
  · intro i hi _ _
    simp [initState] at hi
  · intro k i hk
    simp [initState] at hk

theorem inv_step {s s₂ : SimState} (h : Inv s) (hs : Step s s₂) : Inv s₂ := by
  cases hs with
  | acquire i s hc ha =>
    obtain ⟨hchar, hfree⟩ := attempt_succ ha
    constructor
    · intro j hj k hk
      have hj2 : Function.update s.crossing i true j = true := hj
      show (attempt i s.locks).1 k = some j
      by_cases hji : j = i
      · subst hji
        rw [hchar k, if_pos hk]
      · have hcj : s.crossing j = true := by
          rw [Function.update_noteq hji] at hj2
          exact hj2
        have hsl : s.locks k = some j := h.1 j hcj k hk
        rw [hchar k]
        by_cases hki : k ∈ nzIdxs (pathOf (lights i))
        · rw [hfree k hki] at hsl
          exact absurd hsl (by simp)
        · rw [if_neg hki]
          exact hsl
    · intro k j hkj
      have hkj2 : (attempt i s.locks).1 k = some j := hkj
      rw [hchar k] at hkj2
      show Function.update s.crossing i true j = true ∧ k ∈ nzIdxs (pathOf (lights j))
      by_cases hki : k ∈ nzIdxs (pathOf (lights i))
      · rw [if_pos hki] at hkj2
        have hji : i = j := Option.some.inj hkj2
        subst hji
        exact ⟨Function.update_same i true s.crossing, hki⟩
      · rw [if_neg hki] at hkj2
        obtain ⟨hcj, hmem⟩ := h.2 k j hkj2
        refine ⟨?_, hmem⟩
        by_cases hji : j = i
        · subst hji
          rw [Function.update_same]
        · rw [Function.update_noteq hji]
          exact hcj
  | acquireFail i s hc ha =>
    have hL : (attempt i s.locks).1 = s.locks := attempt_fail ha
    rw [hL]
    exact h
  | release i s hc =>
    constructor
    · intro j hj k hk
      have hj2 : Function.update s.crossing i false j = true := hj
      show releaseAll i s.locks k = some j
      have hji : j ≠ i := by
        intro he
        subst he
        rw [Function.update_same] at hj2
        exact absurd hj2 (by simp)
      have hcj : s.crossing j = true := by
        rw [Function.update_noteq hji] at hj2
        exact hj2
      have hsl : s.locks k = some j := h.1 j hcj k hk
      rw [releaseAll_char]
      by_cases hki : k ∈ nzIdxs (pathOf (lights i))
      · have hsi : s.locks k = some i := h.1 i hc k hki
        rw [hsi] at hsl
        exact absurd (Option.some.inj hsl).symm hji
      · rw [if_neg hki]
        exact hsl
    · intro k j hkj
      have hkj2 : releaseAll i s.locks k = some j := hkj
      rw [releaseAll_char] at hkj2
      show Function.update s.crossing i false j = true ∧ k ∈ nzIdxs (pathOf (lights j))
      by_cases hki : k ∈ nzIdxs (pathOf (lights i))
      · rw [if_pos hki] at hkj2
        exact absurd hkj2 (by simp)
      · rw [if_neg hki] at hkj2
        obtain ⟨hcj, hmem⟩ := h.2 k j hkj2
        have hji : j ≠ i := fun he => hki (he ▸ hmem)
        refine ⟨?_, hmem⟩
        rw [Function.update_noteq hji]
        exact hcj

theorem reachable_inv {s : SimState} (h : Reachable s) : Inv s := by
  induction h with
  | init => exact inv_init
  | step _ hs ih => exact inv_step ih hs

/-! ## Claim theorems -/

/-- C1: for every reachable state of the lock protocol, the set of lights
simultaneously in their crossing section never contains two lights whose
paths share a segment id; equivalently, since the lock table maps each
mutex to at most one holder and a crossing light holds every mutex of its
path, no segment mutex is ever held on behalf of two lights at once. -/
theorem crossing_segments_disjoint (s : SimState) (hs : Reachable s)
    (i j : Fin 9) (hij : i ≠ j) (hi : s.crossing i = true)
    (hj : s.crossing j = true) :
    ∀ m, m ≠ 0 → m ∈ pathOf (lights i) → m ∉ pathOf (lights j) := by
  intro m hm hmi hmj
  have hInv := reachable_inv hs
  have h1 : s.locks (m - 1) = some i := hInv.1 i hi (m - 1) (nzIdxs_mem hmi hm)
  have h2 : s.locks (m - 1) = some j := hInv.1 j hj (m - 1) (nzIdxs_mem hmj hm)
  rw [h1] at h2
  exact hij (Option.some.inj h2)

/-- Witness for C1: from startup, light 0 (north right) and then light 2
(east right) both acquire their paths, reaching a state with two lights
crossing at once; the theorem yields that their paths are disjoint. -/
theorem crossing_segments_disjoint_witness :
    Reachable c1s2 ∧ c1s2.crossing 0 = true ∧ c1s2.crossing 2 = true ∧
      (1 : Nat) ∉ pathOf (lights 2) := by
  have h1 : Step initState c1s1 :=
    Step.acquire 0 initState (by decide) (by decide)
  have h2 : Step c1s1 c1s2 :=
    Step.acquire 2 c1s1 (by decide) (by decide)
  have hreach : Reachable c1s2 := Reachable.step (Reachable.step Reachable.init h1) h2
  have hc0 : c1s2.crossing 0 = true := by decide
  have hc2 : c1s2.crossing 2 = true := by decide
  exact ⟨hreach, hc0, hc2,
    crossing_segments_disjoint c1s2 hreach 0 2 (by decide) hc0 hc2 1
      (by decide) (by decide)⟩

/-- C2: after one acquisition attempt by a light that holds nothing
completes, the light holds either exactly the mutexes of all non-zero
segment ids of its path (attempt succeeded) or none at all (attempt
contended); a strict non-empty subset is never left held. -/
theorem attempt_all_or_nothing (i : Fin 9) (L : Locks)
    (hnone : ∀ k, L k ≠ some i) :
    ((attempt i L).2 = true ∧
      ∀ k, ((attempt i L).1 k = some i ↔ k ∈ nzIdxs (pathOf (lights i)))) ∨
    ((attempt i L).2 = false ∧ ∀ k, (attempt i L).1 k ≠ some i) := by
  cases hb : (attempt i L).2 with
  | false =>
    right
    refine ⟨rfl, ?_⟩
    rw [attempt_fail hb]
    exact hnone
  | true =>
    left
    refine ⟨rfl, ?_⟩
    obtain ⟨hchar, _⟩ := attempt_succ hb
    intro k
    rw [hchar k]
    by_cases hk : k ∈ nzIdxs (pathOf (lights i))
    · simp [hk]
    · rw [if_neg hk]
      simp only [hk, iff_false]
      exact hnone k

/-- Witness for C2: light 0 attempting from the all-free table. -/
theorem attempt_all_or_nothing_witness :
    ((attempt 0 (fun _ => none)).2 = true ∧
      ∀ k, ((attempt 0 (fun _ => none)).1 k = some 0 ↔
        k ∈ nzIdxs (pathOf (lights 0)))) ∨
    ((attempt 0 (fun _ => none)).2 = false ∧
      ∀ k, (attempt 0 (fun _ => none)).1 k ≠ some 0) :=
  attempt_all_or_nothing 0 (fun _ => none) (fun _ h => Option.noConfusion h)

/-! ## Quiescence detector lemmas -/

theorem probeLoop_true (L : Locks) :
    ∀ ks : List Nat, ((probeLoop L ks).1 = true ↔ ∀ k ∈ ks, L k = none) := by
  intro ks
  induction ks with
  | nil => simp [probeLoop]
  | cons k ks ih =>
    rcases hk : L k with _ | j
    · have he : probeLoop L (k :: ks) =
          ((probeLoop L ks).1,
            CAction.probe k :: CAction.probeRel k :: (probeLoop L ks).2) := by
        simp [probeLoop, hk]
      rw [he]
      constructor
      · intro h1 k2 hk2
        rcases List.mem_cons.mp hk2 with h | h
        · rw [h]; exact hk
        · exact (ih.mp h1) k2 h
      · intro h2
        exact ih.mpr fun k2 h => h2 k2 (List.mem_cons.mpr (Or.inr h))
    · have he : probeLoop L (k :: ks) = (false, [CAction.probe k]) := by
        simp [probeLoop, hk]
      rw [he]
      constructor
      · intro h; simp at h
      · intro h
        have h2 := h k (List.mem_cons_self k ks)
        rw [hk] at h2
        simp at h2

theorem probeLoop_acts (L : Locks) :
    ∀ (ks : List Nat) (a : CAction), a ∈ (probeLoop L ks).2 → isProbeAct a = true := by
  intro ks
  induction ks with
  | nil => intro a ha; simp [probeLoop] at ha
  | cons k ks ih =>
    intro a ha
    rcases hk : L k with _ | j
    · have he : probeLoop L (k :: ks) =
          ((probeLoop L ks).1,
            CAction.probe k :: CAction.probeRel k :: (probeLoop L ks).2) := by
        simp [probeLoop, hk]
      rw [he] at ha
      simp only [List.mem_cons] at ha
      rcases ha with h | h | h
      · rw [h]; rfl
      · rw [h]; rfl
      · exact ih a h
    · have he : probeLoop L (k :: ks) = (false, [CAction.probe k]) := by
        simp [probeLoop, hk]
      rw [he] at ha
      simp at ha
      rw [ha]; rfl

theorem probeLoop_abort (L : Locks) :
    ∀ (pre : List Nat) (k : Nat) (post : List Nat),
      (∀ a ∈ pre, L a = none) → (L k).isSome = true →
      probeLoop L (pre ++ k :: post) = (false, probesOf pre ++ [CAction.probe k]) := by
  intro pre
  induction pre with
  | nil =>
    intro k post _ hk
    rcases hL : L k with _ | j
    · rw [hL] at hk; simp at hk
    · simp [probeLoop, hL, probesOf]
  | cons a pre ih =>
    intro k post h hk
    have ha : L a = none := h a (List.mem_cons_self a pre)
    have ht := ih k post (fun x hx => h x (List.mem_cons.mpr (Or.inr hx))) hk
    simp [probeLoop, ha, ht, probesOf]

theorem semsClear_iff (sems : Nat → Nat → Nat) :
    semsClear sems = true ↔ ∀ i < 4, ∀ j < 3, sems i j = 0 := by
  simp only [semsClear, List.all_eq_true, List.mem_range, Bool.not_eq_eq_eq_not,
    Bool.not_true, decide_eq_false_iff_not, Nat.not_lt, Nat.le_zero]

/-- C3: the quiescence detector `all_cars_handled` returns `true` exactly
when every lane semaphore reads zero and every one of the nine segment
mutexes is free; when the semaphores are clear, its probe runs bracketed by
an acquire and a release of the arbitration lock `mutex_lock` and performs
only probe/immediate-release actions within that bracket; and as soon as
one probe finds a held mutex the loop aborts with `false`, having probed
only the indices up to and including that one. -/
theorem all_cars_handled_spec (sems : Nat → Nat → Nat) (L : Locks) :
    (all_cars_handled sems L = true ↔
      ((∀ i < 4, ∀ j < 3, sems i j = 0) ∧ ∀ k < 9, L k = none)) ∧
    (semsClear sems = true →
      ∃ pr, (∀ a ∈ pr, isProbeAct a = true) ∧
        achTrace sems L = CAction.lockArb :: (pr ++ [CAction.unlockArb])) ∧
    (∀ (pre : List Nat) (k : Nat) (post : List Nat),
      List.range 9 = pre ++ k :: post →
      (∀ a ∈ pre, L a = none) → (L k).isSome = true →
      (probeLoop L (List.range 9)).1 = false ∧
      (probeLoop L (List.range 9)).2 = probesOf pre ++ [CAction.probe k]) := by
  refine ⟨?_, ?_, ?_⟩
  · by_cases hs : semsClear sems = true
    · rw [show all_cars_handled sems L = (probeLoop L (List.range 9)).1 from by
        simp [all_cars_handled, hs]]
      rw [probeLoop_true]
      constructor
      · intro h
        exact ⟨(semsClear_iff sems).mp hs, fun k hk => h k (List.mem_range.mpr hk)⟩
      · intro h k hk
        exact h.2 k (List.mem_range.mp hk)
    · rw [show all_cars_handled sems L = false from by simp [all_cars_handled, hs]]
      constructor
      · intro h; simp at h
      · intro h
        exact absurd ((semsClear_iff sems).mpr h.1) hs
  · intro hs
    exact ⟨(probeLoop L (List.range 9)).2,
      fun a ha => probeLoop_acts L (List.range 9) a ha, by simp [achTrace, hs]⟩
  · intro pre k post hsplit hpre hk
    rw [hsplit, probeLoop_abort L pre k post hpre hk]
    exact ⟨rfl, rfl⟩

/-- Witness for C3: with all semaphores zero and all mutexes free the
detector reports `true`; with mutex index 3 held it aborts at the fourth
probe and reports `false`. -/
theorem all_cars_handled_spec_witness :
    all_cars_handled (fun _ _ => 0) (fun _ => none) = true ∧
    (probeLoop c3Locks (List.range 9)).1 = false ∧
    (probeLoop c3Locks (List.range 9)).2 =
      probesOf [0, 1, 2] ++ [CAction.probe 3] := by
  constructor
  · exact (all_cars_handled_spec (fun _ _ => 0) (fun _ => none)).1.mpr
      ⟨fun i _ j _ => rfl, fun k _ => rfl⟩
  · exact (all_cars_handled_spec (fun _ _ => 0) c3Locks).2.2 [0, 1, 2] 3
      [4, 5, 6, 7, 8] (by decide) (by decide) (by decide)

/-! ## Retry and crossing traces -/

theorem condRelActs_isSegUnlock :
    ∀ (ps : List (Nat × Int)) (a : MAction), a ∈ condRelActs ps →
      isSegUnlock a = true := by
  intro ps
  induction ps with
  | nil => intro a ha; simp [condRelActs] at ha
  | cons p ps ih =>
    intro a ha
    obtain ⟨m, r⟩ := p
    by_cases hc : m ≠ 0 ∧ r = 0
    · have he : condRelActs ((m, r) :: ps) =
          [MAction.unlockSeg (m - 1)] ++ condRelActs ps := by
        simp [condRelActs, hc]
      rw [he] at ha
      rcases List.mem_append.mp ha with h | h
      · simp at h
        rw [h]; rfl
      · exact ih a h
    · have he : condRelActs ((m, r) :: ps) = condRelActs ps := by
        simp [condRelActs, hc]
      rw [he] at ha
      exact ih a ha

theorem attempt_snd (i : Fin 9) (L : Locks) :
    (attempt i L).2 = allUnlockedOf (tryAll i L (pathOf (lights i))).2 := by
  cases hall : allUnlockedOf (tryAll i L (pathOf (lights i))).2 with
  | true => simp [attempt, hall]
  | false => simp [attempt, hall]

/-- C4, counterexample: light 1 (north straight, path segments 2, 8, 9)
attempting while segment 9 is held releases its two successfully acquired
mutexes (indices 1 and 7) first and re-posts its semaphore only afterwards,
so the claimed order "re-raise the signal before releasing" is false on the
code. -/
theorem retry_signal_order_counterexample :
    (manageIteration 1 c4Locks).2 =
      [MAction.semWait, MAction.lockArb, MAction.unlockSeg 1, MAction.unlockSeg 7,
       MAction.postSem, MAction.unlockArb, MAction.sleepShort] ∧
    sigBeforeRels (manageIteration 1 c4Locks).2 = false := by
  constructor
  · decide
  · decide

/-- C4, amended: on a contended attempt `manage_light` first performs its
conditional segment unlocks (lines 243..258) and only then re-posts the
lane semaphore (line 260): the contention trace is the release actions
followed by `postSem`, matching the order of §4.5 of the specification
rather than the order asserted in §4.6. -/
theorem retry_releases_then_signals (i : Fin 9) (L : Locks)
    (h : (attempt i L).2 = false) :
    ∃ rels, (∀ a ∈ rels, isSegUnlock a = true) ∧
      (manageIteration i L).2 =
        [MAction.semWait, MAction.lockArb] ++ rels
          ++ [MAction.postSem, MAction.unlockArb, MAction.sleepShort] := by
  have hall : allUnlockedOf (tryAll i L (pathOf (lights i))).2 = false := by
    rw [← attempt_snd]; exact h
  refine ⟨condRelActs ((pathOf (lights i)).zip (tryAll i L (pathOf (lights i))).2),
    fun a ha => condRelActs_isSegUnlock _ a ha, ?_⟩
  simp [manageIteration, hall]

/-- Witness for the amended C4 at the concrete contended attempt of the
counterexample. -/
theorem retry_releases_then_signals_witness :
    ∃ rels, (∀ a ∈ rels, isSegUnlock a = true) ∧
      (manageIteration 1 c4Locks).2 =
        [MAction.semWait, MAction.lockArb] ++ rels
          ++ [MAction.postSem, MAction.unlockArb, MAction.sleepShort] :=
  retry_releases_then_signals 1 c4Locks (by decide)

/-- C5, counterexample: light 0 crossing from the all-free table emits the
green observation (trace position 2) before the arbitration lock is
released (position 3), so the claimed order "release the Arbitration Lock
first and only then emit green" is false on the code; indeed the lock is
still held when green is emitted. -/
theorem crossing_green_order_counterexample :
    (manageIteration 0 initState.locks).2 =
      [MAction.semWait, MAction.lockArb, MAction.printGreen, MAction.unlockArb,
       MAction.sleepCross, MAction.printRed, MAction.lockArb, MAction.unlockSeg 0,
       MAction.unlockArb, MAction.sleepShort] ∧
    arbRelBeforeGreen (manageIteration 0 initState.locks).2 = false ∧
    arbHeldBefore (manageIteration 0 initState.locks).2 2 = true := by
  refine ⟨by decide, by decide, by decide⟩

/-- C5, amended: on a successful attempt `manage_light` emits the green
observation while still holding the arbitration lock (line 265), then
releases the arbitration lock (line 270) before the crossing sleep
(line 275), so the lock is not held during the crossing delay. -/
theorem crossing_green_then_arb_release (i : Fin 9) (L : Locks)
    (h : (attempt i L).2 = true) :
    (manageIteration i L).2 =
      [MAction.semWait, MAction.lockArb, MAction.printGreen, MAction.unlockArb,
       MAction.sleepCross, MAction.printRed, MAction.lockArb]
        ++ relActs (pathOf (lights i)) ++ [MAction.unlockArb, MAction.sleepShort] ∧
    (manageIteration i L).2.take 5 =
      [MAction.semWait, MAction.lockArb, MAction.printGreen, MAction.unlockArb,
       MAction.sleepCross] ∧
    arbHeldBefore (manageIteration i L).2 2 = true ∧
    arbHeldBefore (manageIteration i L).2 4 = false := by
  have hall : allUnlockedOf (tryAll i L (pathOf (lights i))).2 = true := by
    rw [← attempt_snd]; exact h
  have htr : (manageIteration i L).2 =
      [MAction.semWait, MAction.lockArb, MAction.printGreen, MAction.unlockArb,
       MAction.sleepCross, MAction.printRed, MAction.lockArb]
        ++ relActs (pathOf (lights i)) ++ [MAction.unlockArb, MAction.sleepShort] := by
    simp [manageIteration, hall]
  refine ⟨htr, ?_, ?_, ?_⟩
  · rw [htr]; rfl
  · rw [htr]; rfl
  · rw [htr]; rfl

/-- Witness for the amended C5 at light 0 crossing from the all-free
table. -/
theorem crossing_green_then_arb_release_witness :
    (manageIteration 0 initState.locks).2 =
      [MAction.semWait, MAction.lockArb, MAction.printGreen, MAction.unlockArb,
       MAction.sleepCross, MAction.printRed, MAction.lockArb]
        ++ relActs (pathOf (lights 0)) ++ [MAction.unlockArb, MAction.sleepShort] ∧
    (manageIteration 0 initState.locks).2.take 5 =
      [MAction.semWait, MAction.lockArb, MAction.printGreen, MAction.unlockArb,
       MAction.sleepCross] ∧
    arbHeldBefore (manageIteration 0 initState.locks).2 2 = true ∧
    arbHeldBefore (manageIteration 0 initState.locks).2 4 = false :=
  crossing_green_then_arb_release 0 initState.locks (by decide)

/-- C6, counterexample: the green line printed for the north-straight light
at time 0 for car 0 is not of the claimed form
`light <side> <movement> turns green at time <t> for car <id>` (nor of the
claimed red form): the program prefixes every line with `traffic light`,
not `light`. -/
theorem observation_line_form_counterexample :
    print_traffic_light_change Side.north Direction.straight true 0 0 ≠
      specGreenLine 0 1 0 0 ∧
    print_traffic_light_change Side.north Direction.straight true 0 0 ≠
      specRedLine 0 1 0 ∧
    print_traffic_light_change Side.north Direction.straight true 0 0 =
      trafficGreenLine Side.north Direction.straight 0 0 := by
  refine ⟨by decide, by decide, by decide⟩

/-- C6, amended: every line the program produces has one of exactly two
forms, `traffic light <side> <movement> turns green at time <t> for car
<id>` when a light turns green and `traffic light <side> <movement> turns
red at time <t>` when it turns red, with side and movement rendered as
their enum values. -/
theorem observation_line_forms (side : Side) (direction : Direction)
    (green : Bool) (t c : Nat) :
    print_traffic_light_change side direction green t c =
      if green then trafficGreenLine side direction t c
      else trafficRedLine side direction t := by
  cases green
  · rfl
  · rfl

/-- C7: the program has no lane-capacity check at all.  On a dataset giving
lane (north, straight) 21 arrivals, `supply_arrivals` performs all 21
store writes, the last one at per-lane index 20, which is outside the
bounds of `curr_arrivals[4][3][20]` (capacity 20); nothing aborts at
startup. -/
theorem lane_capacity_overflow :
    laneCapacity = 20 ∧
    (supplyWriteList c7Dataset).length = 21 ∧
    ((supplyWriteList c7Dataset).all fun w =>
      decide (w.1 = 0 ∧ w.2.1 = 1)) = true ∧
    ((supplyWriteList c7Dataset).any fun w =>
      decide (laneCapacity ≤ w.2.2)) = true := by
  refine ⟨rfl, by decide, by decide, by decide⟩

/-- C8, counterexample: a trylock result of 22 (`EINVAL`), which is neither
success nor `EBUSY`, drives `manage_light` into exactly the same
contention branch as `EBUSY` does (`all_unlocked` is false either way, so
the attempt is released and retried), and makes `all_cars_handled` log the
error branch and return `false` — nothing aborts the simulation. -/
theorem lock_error_not_fatal_counterexample :
    allUnlockedOf [22, -2, -2, -2] = false ∧
    allUnlockedOf [EBUSY, -2, -2, -2] = false ∧
    probeClassify 22 = ProbeOutcome.errorFalse ∧
    probeReturnsFalse (probeClassify 22) = true ∧
    probeReturnsFalse (probeClassify EBUSY) = true := by
  refine ⟨by decide, by decide, by decide, by decide, by decide⟩

/-- C8, amended: a trylock result other than success, the `-2` unused-slot
sentinel and `EBUSY` is handled exactly like contention by
`manage_light` (the attempt is marked not-all-unlocked and retried) and is
classified by `all_cars_handled` into its error branch, which prints a
diagnostic and returns `false` (not quiescent); the simulation never
aborts on such a result. -/
theorem lock_error_handled_as_contention (r : Int) (h0 : r ≠ 0)
    (h2 : r ≠ -2) (hb : r ≠ EBUSY) (rs : List Int) :
    allUnlockedOf (r :: rs) = false ∧
    probeClassify r = ProbeOutcome.errorFalse ∧
    probeReturnsFalse (probeClassify r) = true := by
  refine ⟨?_, ?_, ?_⟩
  · simp [allUnlockedOf, h0, h2]
  · simp [probeClassify, h0, hb]
  · simp [probeClassify, h0, hb, probeReturnsFalse]

/-- Witness for the amended C8 at the concrete error code 22 (`EINVAL`). -/
theorem lock_error_handled_as_contention_witness :
    allUnlockedOf [22, -2, -2, -2] = false ∧
    probeClassify 22 = ProbeOutcome.errorFalse ∧
    probeReturnsFalse (probeClassify 22) = true :=
  lock_error_handled_as_contention 22 (by decide) (by decide) (by decide)
    [-2, -2, -2]

/-- C9: the thread-creation loop of `main` iterates over all 9 entries of
the `lights` table but writes into `pthread_t light_threads[8]`; loop
index 8 violates the bound `i < 8`, so the write `light_threads[8]` is out
of the array's bounds and the claimed in-bounds property fails on the
code. -/
theorem light_threads_out_of_bounds :
    lightsList.length = 9 ∧
    lightThreadsSize = 8 ∧
    (threadCreateIdxs.all fun i => decide (i < lightThreadsSize)) = false ∧
    8 ∈ threadCreateIdxs ∧
    ¬ (8 < lightThreadsSize) := by
  refine ⟨rfl, rfl, by decide, by decide, by decide⟩

/-- C10: `pthread_mutex_t mutexes[9]` has nine entries, all of which are
tried by the lights and probed by `all_cars_handled` (segment 9, mutex
index 8, is in the path of light 7, west right), but the initialization
and destruction loops of `main` run only over indices 0..7, so index 8 is
covered by neither, and the claimed full-coverage property fails on the
code. -/
theorem mutex_init_incomplete :
    mutexCount = 9 ∧
    ((List.range mutexCount).all fun k => decide (k ∈ mutexInitIdxs)) = false ∧
    8 ∉ mutexInitIdxs ∧
    8 ∉ mutexDestroyIdxs ∧
    8 < mutexCount ∧
    9 ∈ pathOf (lights 7) := by
  refine ⟨rfl, by decide, by decide, by decide, by decide, by decide⟩

end Intersection
